import Mathlib

/-!
Shallow embedding of `src/app_server.py`, a Flask HTTP backend for a retail
kiosk network.  The JSON documents (`stock.json`, `members.json`,
`sessions.json`) become fields of a `ServerState`; each handler becomes a pure
function from the state (and the request data) to a result together with the
state it leaves behind.  Python dicts built by comprehension are modelled as
association lists with insertion-order semantics (inserting an existing key
updates the value in place; a new key is appended).  Numeric JSON values are
modelled as rationals, and Python's `round(x, 2)` as round-half-to-even at two
decimal places.
-/

namespace AppServer

/-- A stock item `{sku, qty, price}` of `stock.json`. -/
structure StockItem where
  sku : String
  qty : Int
  price : ℚ
deriving DecidableEq

/-- A cart line `{sku, qty}` of a checkout request or of a session cart. -/
structure CartLine where
  sku : String
  qty : Int
deriving DecidableEq

/-- A member record of `members.json`; `points` is `none` when the key is
absent (the code reads it with `m.get("points", 0)`). -/
structure Member where
  id : String
  points : Option ℚ
deriving DecidableEq

/-- A per-device session value of `sessions.json`. -/
structure Session where
  cart : List CartLine
  mode : String
  member_id : Option String
  last_step : String
deriving DecidableEq

/-- The three JSON documents that the checkout and session handlers touch.
`sessions` is the device-id-keyed dict `sessions.json`. -/
structure ServerState where
  stock : List StockItem
  members : List Member
  sessions : List (String × Session)
deriving DecidableEq

/-- The error outcomes the handlers can produce as HTTP 400 responses. -/
inductive ApiError where
  /-- `{"error": "unknown sku …"}` from checkout validation. -/
  | unknownSku (sku : String)
  /-- `{"error": "insufficient stock for …"}` from checkout validation. -/
  | insufficientStock (sku : String)
  /-- `{"error": "device_id required"}` from the session endpoint. -/
  | invalidRequest
deriving DecidableEq

/-! ### Access guard (`VALID_KEYS`, `verify_key`, `check_auth`) -/

/-- The static table of per-device shared secrets. -/
def VALID_KEYS : List (String × String) :=
  [("pi-01", "A7K9-22FQ-ZYX1"), ("pi-02", "L9D3-55TN-WBA4")]

/-- `needle.isPrefixOf hay` for character lists, written out: the test Python
performs at each position of a substring scan. -/
def startsWithL (hay needle : List Char) : Bool :=
  match hay, needle with
  | _, [] => true
  | [], _ :: _ => false
  | h :: hs, n :: ns => h == n && startsWithL hs ns

/-- Python's `needle in hay` substring containment on strings, on the
underlying character lists. -/
def containsSub (hay needle : List Char) : Bool :=
  match hay with
  | [] => needle.isEmpty
  | _ :: t => startsWithL hay needle || containsSub t needle

/-- `verify_key`: scan the Authorization header for any of the known secrets
as a substring. -/
def verify_key (auth_header : String) : Bool :=
  VALID_KEYS.any (fun kv => containsSub auth_header.data kv.2.data)

/-- Outcome of the `before_request` hook: either the request proceeds to its
handler, or it is answered `401 {"error": "unauthorized"}` right away. -/
inductive AuthResult where
  | proceed
  | unauthorized
deriving DecidableEq

/-- `check_auth`: every request whose path starts with `/api/` must pass
`verify_key`; all other paths proceed unchecked. -/
def check_auth (path : String) (auth_header : String) : AuthResult :=
  if startsWithL path.data "/api/".data then
    if verify_key auth_header then .proceed else .unauthorized
  else .proceed

/-- The body `{"ok": true}` of the health endpoint. -/
structure HealthResp where
  ok : Bool
deriving DecidableEq

/-- `health`: the handler of `GET /api/health`. -/
def health : HealthResp := ⟨true⟩

/-! ### The sku index (Python dict comprehension `{it["sku"]: it for it in stock}`) -/

/-- Insert into a Python dict modelled as an association list: an existing key
keeps its position and gets the new value, a new key is appended. -/
def dictInsert (d : List (String × StockItem)) (k : String) (v : StockItem) :
    List (String × StockItem) :=
  if d.any (fun p => p.1 == k) then
    d.map (fun p => if p.1 == k then (p.1, v) else p)
  else d ++ [(k, v)]

/-- `sku_to_item = {it["sku"]: it for it in stock}`. -/
def buildIndex (stock : List StockItem) : List (String × StockItem) :=
  stock.foldl (fun d it => dictInsert d it.sku it) []

/-- Dict lookup `d.get(k)` / `d[k]` on the association-list model. -/
def idxFind (d : List (String × StockItem)) (k : String) : Option StockItem :=
  (d.find? (fun p => p.1 == k)).map (fun p => p.2)

/-! ### Checkout -/

/-- The body `{device_id, cart, member_id}` of `POST /api/checkout`; the two
optional fields are `none` when absent from the JSON body. -/
structure CheckoutRequest where
  device_id : Option String
  cart : List CartLine
  member_id : Option String

/-- The check on a single cart line inside checkout's validation loop:
`unknown sku` if the sku is not a key of the index, `insufficient stock` if
the indexed quantity is below the requested one, otherwise no error. -/
def lineError (idx : List (String × StockItem)) (l : CartLine) : Option ApiError :=
  match idxFind idx l.sku with
  | none => some (.unknownSku l.sku)
  | some it => if it.qty < l.qty then some (.insufficientStock l.sku) else none

/-- Checkout's validation loop over the cart, returning the error of the first
failing line (in cart order), if any. -/
def validate (idx : List (String × StockItem)) : List CartLine → Option ApiError
  | [] => none
  | l :: rest =>
    match lineError idx l with
    | some e => some e
    | none => validate idx rest

/-- One step of the decrement loop: `sku_to_item[it["sku"]]["qty"] -= qty`. -/
def decrementOne (idx : List (String × StockItem)) (l : CartLine) :
    List (String × StockItem) :=
  idx.map (fun p => if p.1 == l.sku then (p.1, { p.2 with qty := p.2.qty - l.qty }) else p)

/-- The whole decrement loop over the cart. -/
def applyDecrements (idx : List (String × StockItem)) (cart : List CartLine) :
    List (String × StockItem) :=
  cart.foldl decrementOne idx

/-- Round-half-to-even to an integer, Python's `round` on an exact value. -/
def roundHalfEven (q : ℚ) : Int :=
  let n := ⌊q⌋
  let r := q - n
  if r < 1 / 2 then n
  else if 1 / 2 < r then n + 1
  else if Even n then n else n + 1

/-- Python's `round(x, 2)`: round half to even at two decimal places. -/
def pyRound2 (q : ℚ) : ℚ := (roundHalfEven (q * 100) : ℚ) / 100

/-- The accumulation `total += price * qty` over the cart, with prices read
from the (already decremented) sku index. -/
def cartTotal (idx : List (String × StockItem)) (cart : List CartLine) : ℚ :=
  cart.foldl
    (fun acc l => acc + (((idxFind idx l.sku).map (fun it => it.price)).getD 0) * (l.qty : ℚ))
    0

/-- `m["points"] = float(m.get("points", 0)) + points_add` applied to the first
member whose `id` equals `mid` (Python's `next(...)` finds the first match and
mutates it in place). -/
def accrue (ms : List Member) (mid : String) (add : ℚ) : List Member :=
  match ms with
  | [] => []
  | m :: rest =>
    if m.id == mid then { m with points := some (m.points.getD 0 + add) } :: rest
    else m :: accrue rest mid add

/-- Dict lookup in the sessions document. -/
def lookupSession (ss : List (String × Session)) (k : String) : Option Session :=
  (ss.find? (fun p => p.1 == k)).map (fun p => p.2)

/-- The handler of `POST /api/checkout`.  Returns the response (an error or
success) paired with the state of the three documents after the call.  The
translation keeps the source's order: validate all lines, decrement and write
stock, accrue points when `member_id` is truthy and matches a member, then mark
an existing session as paid. -/
def checkout (st : ServerState) (req : CheckoutRequest) : Option ApiError × ServerState :=
  let idx := buildIndex st.stock
  match validate idx req.cart with
  | some e => (some e, st)
  | none =>
    let idx2 := applyDecrements idx req.cart
    let st1 : ServerState := { st with stock := idx2.map (fun p => p.2) }
    let st2 : ServerState :=
      match req.member_id with
      | none => st1
      | some mid =>
        -- `if member_id:` — Python truthiness: the empty string is falsy
        if mid == "" then st1
        else
          match st1.members.find? (fun m => m.id == mid) with
          | none => st1
          | some _ =>
            let total := cartTotal idx2 req.cart
            let pointsAdd := pyRound2 (total * (5 / 100))
            { st1 with members := accrue st1.members mid pointsAdd }
    let st3 : ServerState :=
      match req.device_id with
      | none => st2   -- `None in sessions` is false: string-keyed dict
      | some d =>
        match lookupSession st2.sessions d with
        | none => st2
        | some _ =>
          { st2 with sessions := st2.sessions.map (fun p =>
              if p.1 == d then (p.1, { p.2 with last_step := "paid", cart := [] }) else p) }
    (none, st3)

/-! ### Session endpoint (`GET /api/session?device_id=…`) -/

/-- Python's `str.strip()`: drop whitespace from both ends. -/
def pyStrip (s : List Char) : List Char :=
  ((s.dropWhile Char.isWhitespace).reverse.dropWhile Char.isWhitespace).reverse

/-- The default session returned for a device id with no stored session. -/
def defaultSession : Session :=
  { cart := [], mode := "guest", member_id := none, last_step := "browse" }

/-- Result of `GET /api/session`: HTTP 400 or a session body. -/
inductive SessionGetResult where
  | err (e : ApiError)
  | ok (s : Session)
deriving DecidableEq

/-- The GET branch of the session handler: strip the `device_id` query
parameter, reject the empty string, otherwise answer with the stored session
or the default.  The handler is returned together with the sessions document
it leaves behind (the GET branch never writes). -/
def session_get (ss : List (String × Session)) (device_id : String) :
    SessionGetResult × List (String × Session) :=
  let q : String := ⟨pyStrip device_id.data⟩
  if q == "" then (.err .invalidRequest, ss)
  else (.ok ((lookupSession ss q).getD defaultSession), ss)

/-! ### Derived quantities used by the verification -/

/-- The total quantity the cart requests of a given sku (the sum of the `qty`
fields of all cart lines with that sku). -/
def cartQty (cart : List CartLine) (k : String) : Int :=
  ((cart.filter (fun l => l.sku == k)).map (fun l => l.qty)).sum

/-- The spec's checkout total, written as the spec writes it:
`total = Σ(price_i × qty_i)` over the cart lines, prices read from the sku
index.  To be compared with the code's running accumulation `cartTotal`. -/
def specTotal (idx : List (String × StockItem)) (cart : List CartLine) : ℚ :=
  (cart.map (fun l => (((idxFind idx l.sku).map (fun it => it.price)).getD 0) * (l.qty : ℚ))).sum

/-! ### Substring lemmas -/

theorem startsWithL_iff (needle hay : List Char) :
    startsWithL hay needle = true ↔ ∃ t, hay = needle ++ t := by
  induction needle generalizing hay with
  | nil => simp [startsWithL]
  | cons n ns ih =>
    cases hay with
    | nil => simp [startsWithL]
    | cons h hs =>
      simp only [startsWithL, Bool.and_eq_true, beq_iff_eq, ih, List.cons_append]
      constructor
      · rintro ⟨rfl, t, rfl⟩
        exact ⟨t, rfl⟩
      · rintro ⟨t, ht⟩
        obtain ⟨h1, h2⟩ := List.cons.inj ht
        exact ⟨h1, t, h2⟩

theorem containsSub_iff (needle hay : List Char) :
    containsSub hay needle = true ↔ ∃ s t, hay = s ++ needle ++ t := by
  induction hay with
  | nil =>
    simp only [containsSub, List.isEmpty_iff]
    constructor
    · rintro rfl
      exact ⟨[], [], rfl⟩
    · rintro ⟨s, t, h⟩
      rcases List.append_eq_nil.mp h.symm with ⟨h1, h2⟩
      exact (List.append_eq_nil.mp h1).2
  | cons c tl ih =>
    simp only [containsSub, Bool.or_eq_true, ih, startsWithL_iff]
    constructor
    · rintro (⟨t, ht⟩ | ⟨s, t, ht⟩)
      · exact ⟨[], t, by simpa using ht⟩
      · exact ⟨c :: s, t, by simp [ht]⟩
    · rintro ⟨s, t, ht⟩
      cases s with
      | nil => exact Or.inl ⟨t, by simpa using ht⟩
      | cons a s1 =>
        obtain ⟨h1, h2⟩ := List.cons.inj ht
        exact Or.inr ⟨s1, t, by simpa using h2⟩

/-! ### Generic list helpers -/

theorem find?_eq_head?_filter {α : Type} (p : α → Bool) (l : List α) :
    l.find? p = (l.filter p).head? := by
  induction l with
  | nil => rfl
  | cons h t ih =>
    by_cases hp : p h
    · rw [List.find?_cons_of_pos _ hp, List.filter_cons_of_pos hp, List.head?_cons]
    · rw [List.find?_cons_of_neg _ hp, List.filter_cons_of_neg hp, ih]

theorem getLast?_filter_eq_find?_reverse {α : Type} (p : α → Bool) (l : List α) :
    (l.filter p).getLast? = l.reverse.find? p := by
  rw [find?_eq_head?_filter, List.filter_reverse, List.head?_reverse]

theorem foldl_add_sum {α : Type} (g : α → ℚ) (l : List α) :
    ∀ a : ℚ, l.foldl (fun acc x => acc + g x) a = a + (l.map g).sum := by
  induction l with
  | nil => intro a; simp
  | cons x tl ih =>
    intro a
    simp only [List.foldl_cons, List.map_cons, List.sum_cons, ih]
    ring

theorem alist_find?_map {β : Type} (f : (String × β) → (String × β))
    (hf : ∀ p, (f p).1 = p.1) (d : List (String × β)) (k : String) :
    (d.map f).find? (fun p => p.1 == k) = (d.find? (fun p => p.1 == k)).map f := by
  rw [List.find?_map]
  have hfe : ((fun p : String × β => p.1 == k) ∘ f) = fun p => p.1 == k := by
    funext p
    simp [Function.comp, hf]
  rw [hfe]

/-! ### Index (Python dict) lemmas -/

theorem idxFind_dictInsert (d : List (String × StockItem)) (k : String) (v : StockItem)
    (k' : String) :
    idxFind (dictInsert d k v) k' = if k' = k then some v else idxFind d k' := by
  unfold dictInsert idxFind
  by_cases hany : d.any (fun p => p.1 == k) = true
  · rw [if_pos hany]
    rw [alist_find?_map (fun p => if p.1 == k then (p.1, v) else p)
      (by intro p; by_cases h : (p.1 == k) = true <;> simp [h])]
    by_cases hk : k' = k
    · subst hk
      obtain ⟨p0, hp0m, hp0⟩ := List.any_eq_true.mp hany
      obtain ⟨p1, hfind⟩ : ∃ p1, d.find? (fun p => p.1 == k') = some p1 := by
        rw [← Option.isSome_iff_exists, List.find?_isSome]
        exact ⟨p0, hp0m, hp0⟩
      have hq : p1.1 = k' := by
        have := List.find?_some hfind
        simpa using this
      simp [hfind, hq]
    · rw [if_neg hk]
      cases hfind : d.find? (fun p => p.1 == k') with
      | none => simp
      | some p1 =>
        have hq : p1.1 = k' := by
          have := List.find?_some hfind
          simpa using this
        have hne : ¬(p1.1 = k) := by
          rw [hq]
          exact hk
        simp [hne]
  · rw [if_neg hany]
    have hall : ∀ p ∈ d, (p.1 == k) = false := by
      intro p hp
      rw [Bool.eq_false_iff]
      intro hc
      exact hany (List.any_eq_true.mpr ⟨p, hp, hc⟩)
    rw [List.find?_append]
    by_cases hk : k' = k
    · subst hk
      have hnone : d.find? (fun p => p.1 == k') = none := by
        rw [List.find?_eq_none]
        intro p hp
        simpa using hall p hp
      simp [hnone]
    · have : ((k, v).1 == k') = false := by
        rw [beq_eq_false_iff_ne]
        exact fun h => hk h.symm
      simp only [List.find?_singleton, this]
      simp [if_neg hk]

theorem idxFind_foldl (stock : List StockItem) :
    ∀ (d : List (String × StockItem)) (k : String),
      idxFind (stock.foldl (fun d it => dictInsert d it.sku it) d) k
        = (stock.reverse.find? (fun it => it.sku == k)).or (idxFind d k) := by
  induction stock with
  | nil => intro d k; simp
  | cons it rest ih =>
    intro d k
    rw [List.foldl_cons, ih, List.reverse_cons, List.find?_append, Option.or_assoc,
      idxFind_dictInsert]
    congr 1
    by_cases hk : k = it.sku
    · simp [List.find?_singleton, hk]
    · have : (it.sku == k) = false := by
        rw [beq_eq_false_iff_ne]
        exact fun h => hk h.symm
      simp [List.find?_singleton, this, if_neg hk]

/-- Duplicate skus in the stored stock list: the index keeps the last
occurrence's value. -/
theorem idxFind_buildIndex (stock : List StockItem) (k : String) :
    idxFind (buildIndex stock) k = stock.reverse.find? (fun it => it.sku == k) := by
  rw [buildIndex, idxFind_foldl]
  simp [idxFind]

theorem keyMatch_buildIndex (stock : List StockItem) :
    ∀ p ∈ buildIndex stock, p.1 = p.2.sku := by
  suffices h : ∀ (stock : List StockItem) (d : List (String × StockItem)),
      (∀ p ∈ d, p.1 = p.2.sku) →
      ∀ p ∈ stock.foldl (fun d it => dictInsert d it.sku it) d, p.1 = p.2.sku by
    exact h stock [] (by simp)
  intro s
  induction s with
  | nil => intro d hd; simpa using hd
  | cons it rest ih =>
    intro d hd
    rw [List.foldl_cons]
    refine ih _ ?_
    intro p hp
    unfold dictInsert at hp
    by_cases hany : d.any (fun q => q.1 == it.sku) = true
    · rw [if_pos hany] at hp
      obtain ⟨q, hq, hfq⟩ := List.mem_map.mp hp
      by_cases hqk : (q.1 == it.sku) = true
      · rw [if_pos hqk] at hfq
        rw [← hfq]
        simpa using hqk
      · rw [if_neg hqk] at hfq
        rw [← hfq]
        exact hd q hq
    · rw [if_neg hany] at hp
      rcases List.mem_append.mp hp with h | h
      · exact hd p h
      · simp only [List.mem_singleton] at h
        rw [h]

theorem valuesMem_buildIndex (stock : List StockItem) :
    ∀ p ∈ buildIndex stock, p.2 ∈ stock := by
  suffices h : ∀ (s : List StockItem) (d : List (String × StockItem)),
      ∀ p ∈ s.foldl (fun d it => dictInsert d it.sku it) d, p.2 ∈ s ∨ p ∈ d by
    intro p hp
    rcases h stock [] p hp with h1 | h1
    · exact h1
    · simp at h1
  intro s
  induction s with
  | nil => intro d p hp; exact Or.inr hp
  | cons it rest ih =>
    intro d p hp
    rw [List.foldl_cons] at hp
    rcases ih _ p hp with h1 | h1
    · exact Or.inl (List.mem_cons_of_mem _ h1)
    · unfold dictInsert at h1
      by_cases hany : d.any (fun q => q.1 == it.sku) = true
      · rw [if_pos hany] at h1
        obtain ⟨q, hq, hfq⟩ := List.mem_map.mp h1
        by_cases hqk : (q.1 == it.sku) = true
        · rw [if_pos hqk] at hfq
          left
          rw [← hfq]
          simp
        · rw [if_neg hqk] at hfq
          right
          rw [← hfq]
          exact hq
      · rw [if_neg hany] at h1
        rcases List.mem_append.mp h1 with h2 | h2
        · exact Or.inr h2
        · simp only [List.mem_singleton] at h2
          left
          rw [h2]
          simp

theorem keysNodup_buildIndex (stock : List StockItem) :
    ((buildIndex stock).map (fun p => p.1)).Nodup := by
  suffices h : ∀ (s : List StockItem) (d : List (String × StockItem)),
      (d.map (fun p => p.1)).Nodup →
      ((s.foldl (fun d it => dictInsert d it.sku it) d).map (fun p => p.1)).Nodup by
    exact h stock [] (by simp)
  intro s
  induction s with
  | nil => intro d hd; simpa using hd
  | cons it rest ih =>
    intro d hd
    rw [List.foldl_cons]
    refine ih _ ?_
    unfold dictInsert
    by_cases hany : d.any (fun q => q.1 == it.sku) = true
    · rw [if_pos hany]
      have : (d.map (fun p => if p.1 == it.sku then (p.1, it) else p)).map (fun p => p.1)
          = d.map (fun p => p.1) := by
        rw [List.map_map]
        refine List.map_congr_left ?_
        intro p _
        by_cases h : p.1 = it.sku <;> simp [h]
      rw [this]
      exact hd
    · rw [if_neg hany, List.map_append]
      have hnotin : it.sku ∉ d.map (fun p => p.1) := by
        intro hmem
        obtain ⟨p, hp, hpe⟩ := List.mem_map.mp hmem
        exact hany (List.any_eq_true.mpr ⟨p, hp, by simp [hpe]⟩)
      simp only [List.map_cons, List.map_nil]
      exact List.Nodup.append hd (List.nodup_singleton _)
        (by simpa [List.disjoint_singleton] using hnotin)

theorem idxFind_of_mem (d : List (String × StockItem))
    (hnd : (d.map (fun p => p.1)).Nodup) (p : String × StockItem) (hp : p ∈ d) :
    idxFind d p.1 = some p.2 := by
  induction d with
  | nil => cases hp
  | cons q rest ih =>
    rcases List.mem_cons.mp hp with h | h
    · subst h
      simp [idxFind]
    · have hq : ¬(q.1 = p.1) := by
        intro he
        have : p.1 ∈ rest.map (fun r => r.1) := List.mem_map.mpr ⟨p, h, rfl⟩
        rw [← he] at this
        exact (List.nodup_cons.mp hnd).1 this
      have hqb : (q.1 == p.1) = false := beq_eq_false_iff_ne.mpr hq
      rw [idxFind, List.find?_cons_of_neg _ (by simp [hqb])]
      exact ih (List.nodup_cons.mp hnd).2 h

theorem idxFind_mem (d : List (String × StockItem)) (k : String) (it : StockItem)
    (h : idxFind d k = some it) : ∃ p ∈ d, p.1 = k ∧ p.2 = it := by
  unfold idxFind at h
  cases hfind : d.find? (fun p => p.1 == k) with
  | none => rw [hfind] at h; cases h
  | some p =>
    rw [hfind] at h
    have hk : p.1 = k := by
      have := List.find?_some hfind
      simpa using this
    refine ⟨p, List.mem_of_find?_eq_some hfind, hk, ?_⟩
    simpa using h

/-! ### Decrement lemmas -/

theorem idxFind_decrementOne (idx : List (String × StockItem)) (l : CartLine) (k : String) :
    idxFind (decrementOne idx l) k
      = (idxFind idx k).map
          (fun it => if k = l.sku then { it with qty := it.qty - l.qty } else it) := by
  unfold decrementOne idxFind
  rw [alist_find?_map
    (fun p : String × StockItem =>
      if p.1 == l.sku then (p.1, { p.2 with qty := p.2.qty - l.qty }) else p)
    (by intro p; by_cases h : (p.1 == l.sku) = true <;> simp [h])]
  cases hfind : idx.find? (fun p => p.1 == k) with
  | none => simp
  | some p =>
    have hk : p.1 = k := by
      have := List.find?_some hfind
      simpa using this
    by_cases hkl : k = l.sku
    · simp [hk, hkl]
    · have hne : ¬(p.1 = l.sku) := by rw [hk]; exact hkl
      simp [hne, hkl]

theorem cartQty_nil (k : String) : cartQty [] k = 0 := rfl

theorem cartQty_cons (l : CartLine) (rest : List CartLine) (k : String) :
    cartQty (l :: rest) k
      = (if l.sku = k then l.qty else 0) + cartQty rest k := by
  unfold cartQty
  by_cases h : l.sku = k
  · rw [List.filter_cons_of_pos (by simp [h]), if_pos h]
    simp
  · rw [List.filter_cons_of_neg (by simp [h]), if_neg h]
    simp

theorem idxFind_applyDecrements (cart : List CartLine) :
    ∀ (idx : List (String × StockItem)) (k : String),
      idxFind (applyDecrements idx cart) k
        = (idxFind idx k).map (fun it => { it with qty := it.qty - cartQty cart k }) := by
  induction cart with
  | nil =>
    intro idx k
    rw [applyDecrements, List.foldl_nil, cartQty_nil]
    cases h : idxFind idx k with
    | none => simp
    | some it => simp
  | cons l rest ih =>
    intro idx k
    rw [applyDecrements, List.foldl_cons, ← applyDecrements, ih, idxFind_decrementOne,
      Option.map_map, cartQty_cons]
    cases h : idxFind idx k with
    | none => simp
    | some it =>
      obtain ⟨s, q, pr⟩ := it
      by_cases hkl : k = l.sku
      · simp [if_pos hkl, if_pos hkl.symm, Function.comp_def, sub_sub]
      · have hne : ¬(l.sku = k) := fun he => hkl he.symm
        simp [if_neg hkl, if_neg hne, Function.comp_def]

theorem cartQty_eq_zero_of_not_mem (cart : List CartLine) (k : String)
    (h : ∀ l ∈ cart, l.sku ≠ k) : cartQty cart k = 0 := by
  unfold cartQty
  have : cart.filter (fun l => l.sku == k) = [] := by
    rw [List.filter_eq_nil_iff]
    intro l hl
    simpa using h l hl
  rw [this]
  rfl

theorem cartQty_of_nodup (cart : List CartLine) (l : CartLine)
    (hnd : (cart.map (fun x => x.sku)).Nodup) (hl : l ∈ cart) :
    cartQty cart l.sku = l.qty := by
  induction cart with
  | nil => cases hl
  | cons x rest ih =>
    rw [List.map_cons, List.nodup_cons] at hnd
    rcases List.mem_cons.mp hl with h | h
    · subst h
      rw [cartQty_cons, if_pos rfl, cartQty_eq_zero_of_not_mem, add_zero]
      intro l' hl' he
      exact hnd.1 (by rw [← he]; exact List.mem_map.mpr ⟨l', hl', rfl⟩)
    · have hx : x.sku ≠ l.sku := by
        intro he
        exact hnd.1 (by rw [he]; exact List.mem_map.mpr ⟨l, h, rfl⟩)
      rw [cartQty_cons, if_neg hx, zero_add]
      exact ih hnd.2 h

theorem keys_decrementOne (idx : List (String × StockItem)) (l : CartLine) :
    (decrementOne idx l).map (fun p => p.1) = idx.map (fun p => p.1) := by
  unfold decrementOne
  rw [List.map_map]
  refine List.map_congr_left ?_
  intro p _
  by_cases h : p.1 = l.sku <;> simp [h]

theorem keys_applyDecrements (cart : List CartLine) :
    ∀ idx : List (String × StockItem),
      (applyDecrements idx cart).map (fun p => p.1) = idx.map (fun p => p.1) := by
  induction cart with
  | nil => intro idx; rfl
  | cons l rest ih =>
    intro idx
    rw [applyDecrements, List.foldl_cons, ← applyDecrements, ih, keys_decrementOne]

theorem keyMatch_decrementOne (idx : List (String × StockItem)) (l : CartLine)
    (h : ∀ p ∈ idx, p.1 = p.2.sku) : ∀ p ∈ decrementOne idx l, p.1 = p.2.sku := by
  intro p hp
  unfold decrementOne at hp
  obtain ⟨q, hq, hfq⟩ := List.mem_map.mp hp
  by_cases hqk : q.1 = l.sku
  · have hb : (q.1 == l.sku) = true := by simpa using hqk
    rw [← hfq]
    simp only [hb, if_true]
    exact h q hq
  · have hb : (q.1 == l.sku) = false := beq_eq_false_iff_ne.mpr hqk
    rw [← hfq]
    simp only [hb, Bool.false_eq_true, if_false]
    exact h q hq

theorem keyMatch_applyDecrements (cart : List CartLine) :
    ∀ idx : List (String × StockItem), (∀ p ∈ idx, p.1 = p.2.sku) →
      ∀ p ∈ applyDecrements idx cart, p.1 = p.2.sku := by
  induction cart with
  | nil => intro idx h; exact h
  | cons l rest ih =>
    intro idx h
    rw [applyDecrements, List.foldl_cons, ← applyDecrements]
    exact ih _ (keyMatch_decrementOne idx l h)

/-- The persisted stock document is the value list of the index; looking an
item up there by sku agrees with the index lookup. -/
theorem valuesFind_eq_idxFind (d : List (String × StockItem))
    (hkm : ∀ p ∈ d, p.1 = p.2.sku) (k : String) :
    (d.map (fun p => p.2)).find? (fun it => it.sku == k) = idxFind d k := by
  induction d with
  | nil => rfl
  | cons p rest ih =>
    have hp : p.1 = p.2.sku := hkm p (List.mem_cons_self p rest)
    by_cases h : p.2.sku = k
    · rw [List.map_cons, List.find?_cons_of_pos _ (by simp [h]), idxFind,
        List.find?_cons_of_pos _ (by simp [hp, h])]
      rfl
    · rw [List.map_cons, List.find?_cons_of_neg _ (by simp [h]), idxFind,
        List.find?_cons_of_neg _ (by simp [hp, h]), ← idxFind]
      exact ih (fun q hq => hkm q (List.mem_cons_of_mem p hq))

/-! ### Validation lemmas -/

theorem lineError_eq_none_iff (idx : List (String × StockItem)) (l : CartLine) :
    lineError idx l = none ↔ ∃ it, idxFind idx l.sku = some it ∧ l.qty ≤ it.qty := by
  unfold lineError
  cases h : idxFind idx l.sku with
  | none => simp
  | some it =>
    by_cases hq : it.qty < l.qty
    · simp only [if_pos hq]
      constructor
      · intro hc; cases hc
      · rintro ⟨it', hit', hle⟩
        rw [← Option.some.inj hit'] at hle
        omega
    · simp only [if_neg hq]
      constructor
      · intro _; exact ⟨it, rfl, by omega⟩
      · intro _; trivial

theorem lineError_shape (idx : List (String × StockItem)) (l : CartLine) (e : ApiError)
    (h : lineError idx l = some e) :
    e = ApiError.unknownSku l.sku ∨ e = ApiError.insufficientStock l.sku := by
  unfold lineError at h
  split at h
  · exact Or.inl (Option.some.inj h).symm
  · split at h
    · exact Or.inr (Option.some.inj h).symm
    · cases h

theorem validate_eq_none_iff (idx : List (String × StockItem)) (cart : List CartLine) :
    validate idx cart = none ↔ ∀ l ∈ cart, lineError idx l = none := by
  induction cart with
  | nil => simp [validate]
  | cons l rest ih =>
    cases h : lineError idx l with
    | none => simp [validate, h, ih]
    | some e => simp [validate, h]

theorem validate_some_shape (idx : List (String × StockItem)) (cart : List CartLine)
    (e : ApiError) (h : validate idx cart = some e) :
    (∃ s, e = ApiError.unknownSku s) ∨ (∃ s, e = ApiError.insufficientStock s) := by
  induction cart with
  | nil => cases h
  | cons l rest ih =>
    rw [validate] at h
    cases hl : lineError idx l with
    | none =>
      rw [hl] at h
      exact ih h
    | some e' =>
      rw [hl] at h
      have he : e' = e := Option.some.inj h
      subst he
      rcases lineError_shape idx l e' hl with h1 | h1
      · exact Or.inl ⟨l.sku, h1⟩
      · exact Or.inr ⟨l.sku, h1⟩

theorem validate_first_fail (idx : List (String × StockItem)) (post : List CartLine)
    (l : CartLine) (e : ApiError) (he : lineError idx l = some e) :
    ∀ pre : List CartLine, (∀ l' ∈ pre, lineError idx l' = none) →
      validate idx (pre ++ l :: post) = some e := by
  intro pre
  induction pre with
  | nil =>
    intro _
    rw [List.nil_append, validate, he]
  | cons x rest ih =>
    intro hpre
    rw [List.cons_append, validate, hpre x (List.mem_cons_self x rest)]
    exact ih (fun l' hl' => hpre l' (List.mem_cons_of_mem x hl'))

theorem validate_some_of_exists_fail (idx : List (String × StockItem))
    (cart : List CartLine) (h : ∃ l ∈ cart, lineError idx l ≠ none) :
    ∃ e, validate idx cart = some e := by
  cases hv : validate idx cart with
  | some e => exact ⟨e, rfl⟩
  | none =>
    obtain ⟨l, hl, hne⟩ := h
    exact absurd ((validate_eq_none_iff idx cart).mp hv l hl) hne

/-! ### Member accrual lemmas -/

theorem cartTotal_eq_specTotal (idx : List (String × StockItem)) (cart : List CartLine) :
    cartTotal idx cart = specTotal idx cart := by
  unfold cartTotal specTotal
  rw [foldl_add_sum]
  ring

theorem accrue_append (mid : String) (add : ℚ) (m0 : Member) (post : List Member)
    (hm0 : m0.id = mid) :
    ∀ pre : List Member, (∀ m ∈ pre, m.id ≠ mid) →
      accrue (pre ++ m0 :: post) mid add
        = pre ++ { m0 with points := some (m0.points.getD 0 + add) } :: post := by
  intro pre
  induction pre with
  | nil =>
    intro _
    rw [List.nil_append, accrue]
    simp [hm0]
  | cons x rest ih =>
    intro hpre
    have hx : (x.id == mid) = false :=
      beq_eq_false_iff_ne.mpr (hpre x (List.mem_cons_self x rest))
    rw [List.cons_append, accrue]
    simp only [hx, Bool.false_eq_true, if_false]
    rw [ih (fun m hm => hpre m (List.mem_cons_of_mem x hm)), List.cons_append]

theorem find?_member_append (mid : String) (m0 : Member) (post : List Member)
    (hm0 : m0.id = mid) (pre : List Member) (hpre : ∀ m ∈ pre, m.id ≠ mid) :
    (pre ++ m0 :: post).find? (fun m => m.id == mid) = some m0 := by
  rw [List.find?_append]
  have hnone : pre.find? (fun m => m.id == mid) = none := by
    rw [List.find?_eq_none]
    intro m hm
    simpa using hpre m hm
  rw [hnone, Option.none_or, List.find?_cons_of_pos _ (by simp [hm0])]

/-! ### Checkout unfolding -/

theorem checkout_of_validate_some (st : ServerState) (req : CheckoutRequest)
    (e : ApiError) (h : validate (buildIndex st.stock) req.cart = some e) :
    checkout st req = (some e, st) := by
  simp [checkout, h]

/-- The success path of checkout, with the three documents written out. -/
theorem checkout_of_validate_none (st : ServerState) (req : CheckoutRequest)
    (h : validate (buildIndex st.stock) req.cart = none) :
    checkout st req =
      (none,
        { stock := (applyDecrements (buildIndex st.stock) req.cart).map (fun p => p.2)
          members :=
            match req.member_id with
            | none => st.members
            | some mid =>
              if mid == "" then st.members
              else
                match st.members.find? (fun m => m.id == mid) with
                | none => st.members
                | some _ =>
                  accrue st.members mid
                    (pyRound2
                      (cartTotal (applyDecrements (buildIndex st.stock) req.cart) req.cart
                        * (5 / 100)))
          sessions :=
            match req.device_id with
            | none => st.sessions
            | some d =>
              match lookupSession st.sessions d with
              | none => st.sessions
              | some _ =>
                st.sessions.map (fun p =>
                  if p.1 == d then (p.1, { p.2 with last_step := "paid", cart := [] }) else p) }) := by
  obtain ⟨dev, cart, mid⟩ := req
  simp only at h
  cases mid with
  | none =>
    cases dev with
    | none => simp [checkout, h]
    | some d =>
      cases hl : lookupSession st.sessions d with
      | none => simp [checkout, h, hl]
      | some s => simp [checkout, h, hl]
  | some mid =>
    by_cases hmid : mid = ""
    · subst hmid
      cases dev with
      | none => simp [checkout, h]
      | some d =>
        cases hl : lookupSession st.sessions d with
        | none => simp [checkout, h, hl]
        | some s => simp [checkout, h, hl]
    · cases hfind : st.members.find? (fun m => m.id == mid) with
      | none =>
        cases dev with
        | none => simp [checkout, h, hmid, hfind]
        | some d =>
          cases hl : lookupSession st.sessions d with
          | none => simp [checkout, h, hmid, hfind, hl]
          | some s => simp [checkout, h, hmid, hfind, hl]
      | some m =>
        cases dev with
        | none => simp [checkout, h, hmid, hfind]
        | some d =>
          cases hl : lookupSession st.sessions d with
          | none => simp [checkout, h, hmid, hfind, hl]
          | some s => simp [checkout, h, hmid, hfind, hl]

/-! ### Claim C2 -/

/-- Claim C2, as stated, is false on the code: `check_auth` guards every path
that starts with `/api/`, and `/api/health` is such a path, so a request to
`GET /api/health` without any shared secret is rejected with Unauthorized —
the health endpoint is not exempt. -/
theorem api_health_requires_secret_counterexample :
    check_auth "/api/health" "" = AuthResult.unauthorized ∧ verify_key "" = false := by
  constructor <;> rfl

/-- Claim C2 (amended): `GET /api/health` is guarded like every other `/api/*`
path: without a known secret in the authorization header the guard rejects it
with Unauthorized, and with a known secret it proceeds to the handler, which
returns `{ok: true}`. -/
theorem api_health_guarded (auth : String) :
    (verify_key auth = false → check_auth "/api/health" auth = AuthResult.unauthorized) ∧
    (verify_key auth = true →
      check_auth "/api/health" auth = AuthResult.proceed ∧ health.ok = true) := by
  constructor
  · intro h
    unfold check_auth
    rw [if_pos (by rfl), h]
    rfl
  · intro h
    refine ⟨?_, rfl⟩
    unfold check_auth
    rw [if_pos (by rfl), h]
    rfl

theorem api_health_guarded_witness :
    (verify_key "" = false ∧ check_auth "/api/health" "" = AuthResult.unauthorized) ∧
    (verify_key "token A7K9-22FQ-ZYX1" = true ∧
      check_auth "/api/health" "token A7K9-22FQ-ZYX1" = AuthResult.proceed) :=
  ⟨⟨by decide, (api_health_guarded "").1 (by decide)⟩,
   ⟨by decide, ((api_health_guarded "token A7K9-22FQ-ZYX1").2 (by decide)).1⟩⟩

/-! ### Claim C6 -/

/-- Claim C6: the guard accepts exactly the authorization headers that contain
some known secret as a substring (with arbitrary prefix and suffix around it),
and a request to a protected `/api/*` path whose header contains no known
secret is rejected with Unauthorized by the `before_request` hook, before any
endpoint logic runs. -/
theorem access_guard_substring_semantics (auth path : String) :
    (verify_key auth = true ↔
      ∃ kv ∈ VALID_KEYS, ∃ s t, auth.data = s ++ kv.2.data ++ t) ∧
    (startsWithL path.data "/api/".data = true → verify_key auth = false →
      check_auth path auth = AuthResult.unauthorized) := by
  constructor
  · unfold verify_key
    rw [List.any_eq_true]
    constructor
    · rintro ⟨kv, hkv, hc⟩
      exact ⟨kv, hkv, (containsSub_iff kv.2.data auth.data).mp hc⟩
    · rintro ⟨kv, hkv, hdecomp⟩
      exact ⟨kv, hkv, (containsSub_iff kv.2.data auth.data).mpr hdecomp⟩
  · intro hpath hkey
    unfold check_auth
    rw [if_pos hpath, hkey]
    rfl

theorem access_guard_substring_semantics_witness :
    verify_key "xxA7K9-22FQ-ZYX1yy" = true ∧
    check_auth "/api/stock" "Bearer wrong-key" = AuthResult.unauthorized :=
  ⟨(access_guard_substring_semantics "xxA7K9-22FQ-ZYX1yy" "/api/stock").1.mpr
      ⟨("pi-01", "A7K9-22FQ-ZYX1"), by decide, "xx".data, "yy".data, by decide⟩,
   (access_guard_substring_semantics "Bearer wrong-key" "/api/stock").2
      (by decide) (by decide)⟩

/-! ### Claim C7 -/

/-- Claim C7: `GET /api/session` for a device id that (after stripping) is
non-empty and has no stored session answers with exactly the default session
`{cart: [], mode: "guest", member_id: null, last_step: "browse"}` and leaves
the sessions document untouched — the default is never persisted. -/
theorem session_get_never_seen_default_no_write (ss : List (String × Session))
    (dev : String) (hq : (⟨pyStrip dev.data⟩ : String) ≠ "")
    (habs : lookupSession ss ⟨pyStrip dev.data⟩ = none) :
    session_get ss dev = (SessionGetResult.ok defaultSession, ss) := by
  unfold session_get
  rw [if_neg (by simpa using hq), habs]
  rfl

theorem session_get_never_seen_default_no_write_witness :
    ((⟨pyStrip "  kiosk-1 ".data⟩ : String) ≠ "" ∧
      lookupSession [] (⟨pyStrip "  kiosk-1 ".data⟩ : String) = none) ∧
    session_get [] "  kiosk-1 " = (SessionGetResult.ok defaultSession, []) :=
  ⟨⟨by decide, rfl⟩,
   session_get_never_seen_default_no_write [] "  kiosk-1 " (by decide) rfl⟩

/-! ### Claim C3 -/

/-- Claim C3: if any cart line fails validation (unknown sku or insufficient
stock for that line), checkout answers with one of the two validation errors
and performs no write: the returned state is the input state, so the stock,
members and sessions documents are all unchanged. -/
theorem checkout_validation_failure_no_write (st : ServerState) (req : CheckoutRequest)
    (h : ∃ l ∈ req.cart, lineError (buildIndex st.stock) l ≠ none) :
    ∃ e, checkout st req = (some e, st) ∧
      ((∃ s, e = ApiError.unknownSku s) ∨ (∃ s, e = ApiError.insufficientStock s)) ∧
      (checkout st req).2.stock = st.stock ∧
      (checkout st req).2.members = st.members ∧
      (checkout st req).2.sessions = st.sessions := by
  obtain ⟨e, he⟩ := validate_some_of_exists_fail (buildIndex st.stock) req.cart h
  have hco := checkout_of_validate_some st req e he
  exact ⟨e, hco, validate_some_shape _ _ e he, by rw [hco], by rw [hco], by rw [hco]⟩

theorem checkout_validation_failure_no_write_witness :
    (∃ l ∈ ([⟨"zz", 1⟩] : List CartLine),
      lineError (buildIndex [⟨"a", 1, 100⟩]) l ≠ none) ∧
    (∃ e, checkout ⟨[⟨"a", 1, 100⟩], [], []⟩ ⟨none, [⟨"zz", 1⟩], none⟩
        = (some e, ⟨[⟨"a", 1, 100⟩], [], []⟩) ∧
      ((∃ s, e = ApiError.unknownSku s) ∨ (∃ s, e = ApiError.insufficientStock s)) ∧
      (checkout ⟨[⟨"a", 1, 100⟩], [], []⟩ ⟨none, [⟨"zz", 1⟩], none⟩).2.stock = [⟨"a", 1, 100⟩] ∧
      (checkout ⟨[⟨"a", 1, 100⟩], [], []⟩ ⟨none, [⟨"zz", 1⟩], none⟩).2.members = [] ∧
      (checkout ⟨[⟨"a", 1, 100⟩], [], []⟩ ⟨none, [⟨"zz", 1⟩], none⟩).2.sessions = []) :=
  ⟨by decide,
   checkout_validation_failure_no_write ⟨[⟨"a", 1, 100⟩], [], []⟩ ⟨none, [⟨"zz", 1⟩], none⟩
     (by decide)⟩

/-! ### Claim C5 -/

/-- Claim C5: the error checkout returns is decided by the first failing cart
line in cart order: if every line before `l` passes and `l` fails, the
response is `UnknownSku l.sku` when `l.sku` is not in the index, and
`InsufficientStock l.sku` when it is (with too little quantity) — whichever
kind of failure the first failing line has. -/
theorem checkout_first_failing_line (st : ServerState) (req : CheckoutRequest)
    (pre post : List CartLine) (l : CartLine)
    (hsplit : req.cart = pre ++ l :: post)
    (hpre : ∀ l' ∈ pre, lineError (buildIndex st.stock) l' = none)
    (hfail : lineError (buildIndex st.stock) l ≠ none) :
    (idxFind (buildIndex st.stock) l.sku = none →
      checkout st req = (some (ApiError.unknownSku l.sku), st)) ∧
    (∀ it, idxFind (buildIndex st.stock) l.sku = some it →
      checkout st req = (some (ApiError.insufficientStock l.sku), st)) := by
  constructor
  · intro hnone
    have he : lineError (buildIndex st.stock) l = some (ApiError.unknownSku l.sku) := by
      unfold lineError
      rw [hnone]
    refine checkout_of_validate_some st req _ ?_
    rw [hsplit]
    exact validate_first_fail _ post l _ he pre hpre
  · intro it hsome
    have hlt : it.qty < l.qty := by
      by_contra hge
      exact hfail ((lineError_eq_none_iff _ l).mpr ⟨it, hsome, by omega⟩)
    have he : lineError (buildIndex st.stock) l = some (ApiError.insufficientStock l.sku) := by
      unfold lineError
      rw [hsome]
      simp only [if_pos hlt]
    refine checkout_of_validate_some st req _ ?_
    rw [hsplit]
    exact validate_first_fail _ post l _ he pre hpre

theorem checkout_first_failing_line_witness :
    (([⟨"a", 1⟩, ⟨"a", 5⟩] : List CartLine) = [⟨"a", 1⟩] ++ ⟨"a", 5⟩ :: [] ∧
      (∀ l' ∈ ([⟨"a", 1⟩] : List CartLine),
        lineError (buildIndex [⟨"a", 1, 100⟩]) l' = none) ∧
      lineError (buildIndex [⟨"a", 1, 100⟩]) ⟨"a", 5⟩ ≠ none ∧
      idxFind (buildIndex [⟨"a", 1, 100⟩]) "a" = some ⟨"a", 1, 100⟩) ∧
    checkout ⟨[⟨"a", 1, 100⟩], [], []⟩ ⟨none, [⟨"a", 1⟩, ⟨"a", 5⟩], none⟩
      = (some (ApiError.insufficientStock "a"), ⟨[⟨"a", 1, 100⟩], [], []⟩) :=
  ⟨⟨rfl, by decide, by decide, by decide⟩,
   (checkout_first_failing_line ⟨[⟨"a", 1, 100⟩], [], []⟩ ⟨none, [⟨"a", 1⟩, ⟨"a", 5⟩], none⟩
      [⟨"a", 1⟩] [] ⟨"a", 5⟩ rfl (by decide) (by decide)).2 ⟨"a", 1, 100⟩ (by decide)⟩

/-! ### Claim C1 -/

/-- Claim C1, as stated, is false on the code: a cart with two lines for the
same sku is validated line by line against the unchanged stock, so both lines
pass, and the decrement loop then drives the persisted quantity negative.
With stock `[{sku: "a", qty: 1}]` and cart `[{a,1},{a,1}]` checkout succeeds
and persists qty -1. -/
theorem checkout_duplicate_sku_negative_stock :
    (checkout ⟨[⟨"a", 1, 100⟩], [], []⟩ ⟨none, [⟨"a", 1⟩, ⟨"a", 1⟩], none⟩).1 = none ∧
    (checkout ⟨[⟨"a", 1, 100⟩], [], []⟩ ⟨none, [⟨"a", 1⟩, ⟨"a", 1⟩], none⟩).2.stock
      = [⟨"a", -1, 100⟩] ∧
    ∃ j ∈ (checkout ⟨[⟨"a", 1, 100⟩], [], []⟩ ⟨none, [⟨"a", 1⟩, ⟨"a", 1⟩], none⟩).2.stock,
      j.qty < 0 := by
  refine ⟨by decide, by decide, ⟨"a", -1, 100⟩, by decide, by decide⟩

/-- Claim C1 (amended): for carts whose lines carry pairwise-distinct skus,
a successful checkout decreases each cart line's sku's persisted stock
quantity by exactly that line's requested quantity, and — when the starting
quantities are non-negative — no quantity in the persisted stock document is
negative. -/
theorem checkout_distinct_sku_invariant (st : ServerState) (req : CheckoutRequest)
    (hnod : (req.cart.map (fun l => l.sku)).Nodup)
    (hnn : ∀ it ∈ st.stock, 0 ≤ it.qty)
    (hv : validate (buildIndex st.stock) req.cart = none) :
    (checkout st req).1 = none ∧
    (∀ l ∈ req.cart, ∃ it it',
      idxFind (buildIndex st.stock) l.sku = some it ∧
      (checkout st req).2.stock.find? (fun j => j.sku == l.sku) = some it' ∧
      it'.qty = it.qty - l.qty ∧ 0 ≤ it'.qty) ∧
    (∀ j ∈ (checkout st req).2.stock, 0 ≤ j.qty) := by
  have hco := checkout_of_validate_none st req hv
  have hstock : (checkout st req).2.stock
      = (applyDecrements (buildIndex st.stock) req.cart).map (fun p => p.2) := by
    rw [hco]
  have hkm : ∀ p ∈ buildIndex st.stock, p.1 = p.2.sku := keyMatch_buildIndex st.stock
  have hkm2 : ∀ p ∈ applyDecrements (buildIndex st.stock) req.cart, p.1 = p.2.sku :=
    keyMatch_applyDecrements req.cart (buildIndex st.stock) hkm
  have hnd2 : ((applyDecrements (buildIndex st.stock) req.cart).map (fun p => p.1)).Nodup := by
    rw [keys_applyDecrements]
    exact keysNodup_buildIndex st.stock
  refine ⟨by rw [hco], ?_, ?_⟩
  · intro l hl
    obtain ⟨it, hit, hle⟩ := (lineError_eq_none_iff (buildIndex st.stock) l).mp
      ((validate_eq_none_iff (buildIndex st.stock) req.cart).mp hv l hl)
    refine ⟨it, { it with qty := it.qty - l.qty }, hit, ?_, rfl,
      by show (0 : Int) ≤ it.qty - l.qty; omega⟩
    rw [hstock, valuesFind_eq_idxFind _ hkm2 l.sku, idxFind_applyDecrements, hit,
      cartQty_of_nodup req.cart l hnod hl]
    rfl
  · intro j hj
    rw [hstock] at hj
    obtain ⟨p, hp, hpj⟩ := List.mem_map.mp hj
    have hfind2 : idxFind (applyDecrements (buildIndex st.stock) req.cart) p.1 = some p.2 :=
      idxFind_of_mem _ hnd2 p hp
    rw [idxFind_applyDecrements] at hfind2
    cases hfind0 : idxFind (buildIndex st.stock) p.1 with
    | none =>
      rw [hfind0] at hfind2
      cases hfind2
    | some it0 =>
      rw [hfind0] at hfind2
      have hp2 : p.2 = { it0 with qty := it0.qty - cartQty req.cart p.1 } :=
        (Option.some.inj hfind2).symm
      have hit0mem : it0 ∈ st.stock := by
        obtain ⟨q, hq, _, hq2⟩ := idxFind_mem _ p.1 it0 hfind0
        rw [← hq2]
        exact valuesMem_buildIndex st.stock q hq
      have h0 : 0 ≤ it0.qty := hnn it0 hit0mem
      by_cases hmem : ∃ l ∈ req.cart, l.sku = p.1
      · obtain ⟨l, hl, hls⟩ := hmem
        have hq : cartQty req.cart p.1 = l.qty := by
          rw [← hls]
          exact cartQty_of_nodup req.cart l hnod hl
        obtain ⟨it1, hit1, hle1⟩ := (lineError_eq_none_iff (buildIndex st.stock) l).mp
          ((validate_eq_none_iff (buildIndex st.stock) req.cart).mp hv l hl)
        rw [hls, hfind0] at hit1
        obtain rfl : it0 = it1 := Option.some.inj hit1
        rw [← hpj, hp2, hq]
        show (0 : Int) ≤ it0.qty - l.qty
        omega
      · push_neg at hmem
        have hq : cartQty req.cart p.1 = 0 :=
          cartQty_eq_zero_of_not_mem req.cart p.1 hmem
        rw [← hpj, hp2, hq]
        show (0 : Int) ≤ it0.qty - 0
        omega

theorem checkout_distinct_sku_invariant_witness :
    ((([⟨"a", 2⟩, ⟨"b", 4⟩] : List CartLine).map (fun l => l.sku)).Nodup ∧
      (∀ it ∈ ([⟨"a", 5, 2⟩, ⟨"b", 4, 3⟩] : List StockItem), 0 ≤ it.qty) ∧
      validate (buildIndex [⟨"a", 5, 2⟩, ⟨"b", 4, 3⟩]) [⟨"a", 2⟩, ⟨"b", 4⟩] = none) ∧
    ((checkout ⟨[⟨"a", 5, 2⟩, ⟨"b", 4, 3⟩], [], []⟩ ⟨none, [⟨"a", 2⟩, ⟨"b", 4⟩], none⟩).1
        = none ∧
      (∀ j ∈ (checkout ⟨[⟨"a", 5, 2⟩, ⟨"b", 4, 3⟩], [], []⟩
          ⟨none, [⟨"a", 2⟩, ⟨"b", 4⟩], none⟩).2.stock, 0 ≤ j.qty)) :=
  ⟨⟨by decide, by decide, by decide⟩,
   (checkout_distinct_sku_invariant ⟨[⟨"a", 5, 2⟩, ⟨"b", 4, 3⟩], [], []⟩
      ⟨none, [⟨"a", 2⟩, ⟨"b", 4⟩], none⟩ (by decide) (by decide) (by decide)).1,
   (checkout_distinct_sku_invariant ⟨[⟨"a", 5, 2⟩, ⟨"b", 4, 3⟩], [], []⟩
      ⟨none, [⟨"a", 2⟩, ⟨"b", 4⟩], none⟩ (by decide) (by decide) (by decide)).2.2⟩

/-! ### Claim C4 -/

/-- Claim C4, as stated, is false on the code at one edge: `if member_id:`
tests Python truthiness, so the empty string — which is non-null — skips
accrual even when a member with id `""` exists.  With stock
`[{a, qty 1, price 100}]`, members `[{id: "", points: 0}]`, cart `[{a,1}]`
and `member_id = ""`, checkout succeeds, a member with the given id exists,
the claimed increment is `round(100·0.05, 2) = 5 ≠ 0`, yet no points change. -/
theorem member_empty_id_counterexample :
    (checkout ⟨[⟨"a", 1, 100⟩], [⟨"", some 0⟩], []⟩ ⟨none, [⟨"a", 1⟩], some ""⟩).1 = none ∧
    (∃ m ∈ ([⟨"", some 0⟩] : List Member), m.id = "") ∧
    (checkout ⟨[⟨"a", 1, 100⟩], [⟨"", some 0⟩], []⟩ ⟨none, [⟨"a", 1⟩], some ""⟩).2.members
      = [⟨"", some 0⟩] ∧
    pyRound2 ((100 : ℚ) * 1 * (5 / 100)) = 5 ∧
    some (0 : ℚ) ≠ some ((0 : ℚ) + 5) := by
  refine ⟨by decide, ⟨⟨"", some 0⟩, by decide, rfl⟩, by decide, ?_, by norm_num⟩
  norm_num [pyRound2, roundHalfEven]

/-- Claim C4 (amended): for a successful checkout whose `member_id` is
non-null **and non-empty**: if it matches no member, checkout still succeeds
and the members document is unchanged; if it matches a member (the first with
that id), exactly that member's points grow by
`round((Σ price_i·qty_i)·0.05, 2)`, prices read from the decremented stock
index and absent points defaulting to 0. -/
theorem checkout_points_accrual (st : ServerState) (req : CheckoutRequest) (mid : String)
    (hv : validate (buildIndex st.stock) req.cart = none)
    (hm : req.member_id = some mid) (hne : mid ≠ "") :
    ((∀ m ∈ st.members, m.id ≠ mid) →
      (checkout st req).1 = none ∧ (checkout st req).2.members = st.members) ∧
    (∀ pre m0 post, st.members = pre ++ m0 :: post → (∀ m ∈ pre, m.id ≠ mid) →
      m0.id = mid →
      (checkout st req).1 = none ∧
      (checkout st req).2.members = pre ++
        { m0 with points := some (m0.points.getD 0 +
            pyRound2 (specTotal (applyDecrements (buildIndex st.stock) req.cart) req.cart
              * (5 / 100))) } :: post) := by
  have hco := checkout_of_validate_none st req hv
  have hbe : (mid == "") = false := beq_eq_false_iff_ne.mpr hne
  have hfst : (checkout st req).1 = none := by rw [hco]
  have hmem : (checkout st req).2.members
      = (match st.members.find? (fun m => m.id == mid) with
         | none => st.members
         | some _ =>
            accrue st.members mid
              (pyRound2 (cartTotal (applyDecrements (buildIndex st.stock) req.cart) req.cart
                * (5 / 100)))) := by
    rw [hco, hm]
    simp only [hbe, Bool.false_eq_true, if_false]
  constructor
  · intro hnone
    have hf : st.members.find? (fun m => m.id == mid) = none := by
      rw [List.find?_eq_none]
      intro m hm'
      simpa using hnone m hm'
    rw [hmem, hf]
    exact ⟨hfst, rfl⟩
  · intro pre m0 post hdecomp hpre hm0
    have hf : st.members.find? (fun m => m.id == mid) = some m0 := by
      rw [hdecomp]
      exact find?_member_append mid m0 post hm0 pre hpre
    refine ⟨hfst, ?_⟩
    rw [hmem, hf]
    show accrue st.members mid _ = _
    rw [cartTotal_eq_specTotal, hdecomp]
    exact accrue_append mid _ m0 post hm0 pre hpre

theorem checkout_points_accrual_witness :
    (validate (buildIndex [⟨"A", 10, 2⟩]) [⟨"A", 3⟩] = none ∧ ("m1" : String) ≠ "") ∧
    (checkout ⟨[⟨"A", 10, 2⟩], [⟨"m1", some 0⟩], []⟩ ⟨none, [⟨"A", 3⟩], some "m1"⟩).2.members
      = [⟨"m1", some (3 / 10)⟩] := by
  refine ⟨⟨by decide, by decide⟩, ?_⟩
  have h := (checkout_points_accrual ⟨[⟨"A", 10, 2⟩], [⟨"m1", some 0⟩], []⟩
      ⟨none, [⟨"A", 3⟩], some "m1"⟩ "m1" (by decide) rfl (by decide)).2
      [] ⟨"m1", some 0⟩ [] rfl (by simp) rfl
  rw [h.2]
  have hval : specTotal
      (applyDecrements (buildIndex [⟨"A", 10, 2⟩]) [⟨"A", 3⟩]) [⟨"A", 3⟩] = 6 := by
    norm_num [specTotal, applyDecrements, buildIndex, dictInsert, decrementOne, idxFind,
      List.find?]
  rw [hval]
  have hround : pyRound2 ((6 : ℚ) * (5 / 100)) = 3 / 10 := by
    norm_num [pyRound2, roundHalfEven]
  rw [hround]
  norm_num

/-! ### Claim C8 -/

/-- Claim C8: checkout never validates `device_id`.  With `device_id` absent
(or the empty string, which is never a session key), a cart that passes stock
validation still decrements stock and succeeds, and the session-update step is
a no-op; no checkout ever answers `InvalidRequest`. -/
theorem checkout_ignores_missing_device (st : ServerState) (cart : List CartLine)
    (mid : Option String)
    (hv : validate (buildIndex st.stock) cart = none)
    (hempty : lookupSession st.sessions "" = none) :
    ((checkout st ⟨none, cart, mid⟩).1 = none ∧
      (checkout st ⟨none, cart, mid⟩).2.stock
        = (applyDecrements (buildIndex st.stock) cart).map (fun p => p.2) ∧
      (checkout st ⟨none, cart, mid⟩).2.sessions = st.sessions) ∧
    ((checkout st ⟨some "", cart, mid⟩).1 = none ∧
      (checkout st ⟨some "", cart, mid⟩).2.stock
        = (applyDecrements (buildIndex st.stock) cart).map (fun p => p.2) ∧
      (checkout st ⟨some "", cart, mid⟩).2.sessions = st.sessions) ∧
    (∀ (st' : ServerState) (req' : CheckoutRequest),
      (checkout st' req').1 ≠ some ApiError.invalidRequest) := by
  have h1 := checkout_of_validate_none st ⟨none, cart, mid⟩ hv
  have h2 := checkout_of_validate_none st ⟨some "", cart, mid⟩ hv
  refine ⟨⟨by rw [h1], by rw [h1], by rw [h1]⟩, ⟨by rw [h2], by rw [h2], ?_⟩, ?_⟩
  · rw [h2]
    show (match lookupSession st.sessions "" with
          | none => st.sessions
          | some _ => st.sessions.map (fun p =>
              if p.1 == "" then (p.1, { p.2 with last_step := "paid", cart := [] }) else p))
        = st.sessions
    rw [hempty]
  · intro st' req' hc
    cases hval : validate (buildIndex st'.stock) req'.cart with
    | none =>
      rw [checkout_of_validate_none st' req' hval] at hc
      cases hc
    | some e =>
      rw [checkout_of_validate_some st' req' e hval] at hc
      have he : e = ApiError.invalidRequest := Option.some.inj hc
      rcases validate_some_shape _ _ e hval with ⟨s, rfl⟩ | ⟨s, rfl⟩ <;> cases he

theorem checkout_ignores_missing_device_witness :
    (validate (buildIndex [⟨"a", 1, 100⟩]) [⟨"a", 1⟩] = none ∧
      lookupSession [("d", defaultSession)] "" = none) ∧
    ((checkout ⟨[⟨"a", 1, 100⟩], [], [("d", defaultSession)]⟩ ⟨none, [⟨"a", 1⟩], none⟩).1
        = none ∧
      (checkout ⟨[⟨"a", 1, 100⟩], [], [("d", defaultSession)]⟩
          ⟨none, [⟨"a", 1⟩], none⟩).2.sessions = [("d", defaultSession)]) ∧
    ((checkout ⟨[⟨"a", 1, 100⟩], [], [("d", defaultSession)]⟩ ⟨some "", [⟨"a", 1⟩], none⟩).1
        = none ∧
      (checkout ⟨[⟨"a", 1, 100⟩], [], [("d", defaultSession)]⟩
          ⟨some "", [⟨"a", 1⟩], none⟩).2.sessions = [("d", defaultSession)]) :=
  ⟨⟨by decide, by decide⟩,
   ⟨(checkout_ignores_missing_device ⟨[⟨"a", 1, 100⟩], [], [("d", defaultSession)]⟩
        [⟨"a", 1⟩] none (by decide) (by decide)).1.1,
    (checkout_ignores_missing_device ⟨[⟨"a", 1, 100⟩], [], [("d", defaultSession)]⟩
        [⟨"a", 1⟩] none (by decide) (by decide)).1.2.2⟩,
   ⟨(checkout_ignores_missing_device ⟨[⟨"a", 1, 100⟩], [], [("d", defaultSession)]⟩
        [⟨"a", 1⟩] none (by decide) (by decide)).2.1.1,
    (checkout_ignores_missing_device ⟨[⟨"a", 1, 100⟩], [], [("d", defaultSession)]⟩
        [⟨"a", 1⟩] none (by decide) (by decide)).2.1.2.2⟩⟩

/-! ### Claim C9 -/

/-- Claim C9: a cart line with a known sku and a negative quantity passes
validation (a non-negative available quantity is never `<` a negative
request), and the decrement `qty -= negative` increases the persisted stock
quantity of that sku by `|qty|`. -/
theorem checkout_negative_qty_increases_stock (st : ServerState) (sku : String)
    (qty : Int) (it : StockItem) (hq : qty < 0)
    (hfind : idxFind (buildIndex st.stock) sku = some it)
    (hnn : ∀ j ∈ st.stock, 0 ≤ j.qty) :
    lineError (buildIndex st.stock) ⟨sku, qty⟩ = none ∧
    (checkout st ⟨none, [⟨sku, qty⟩], none⟩).1 = none ∧
    ∃ it', (checkout st ⟨none, [⟨sku, qty⟩], none⟩).2.stock.find?
        (fun j => j.sku == sku) = some it' ∧ it'.qty = it.qty + (qty.natAbs : Int) := by
  have h0 : 0 ≤ it.qty := by
    obtain ⟨p, hp, _, hp2⟩ := idxFind_mem _ sku it hfind
    rw [← hp2]
    exact hnn _ (valuesMem_buildIndex st.stock p hp)
  have hle : lineError (buildIndex st.stock) ⟨sku, qty⟩ = none :=
    (lineError_eq_none_iff _ _).mpr ⟨it, hfind, by show qty ≤ it.qty; omega⟩
  have hv : validate (buildIndex st.stock) [⟨sku, qty⟩] = none := by
    rw [validate, hle]
    rfl
  have hco := checkout_of_validate_none st ⟨none, [⟨sku, qty⟩], none⟩ hv
  have hkm2 : ∀ p ∈ applyDecrements (buildIndex st.stock) [⟨sku, qty⟩], p.1 = p.2.sku :=
    keyMatch_applyDecrements _ _ (keyMatch_buildIndex st.stock)
  refine ⟨hle, by rw [hco], { it with qty := it.qty - qty }, ?_, by
    show it.qty - qty = it.qty + (qty.natAbs : Int)
    omega⟩
  have hstock : (checkout st ⟨none, [⟨sku, qty⟩], none⟩).2.stock
      = (applyDecrements (buildIndex st.stock) [⟨sku, qty⟩]).map (fun p => p.2) := by
    rw [hco]
  rw [hstock, valuesFind_eq_idxFind _ hkm2 sku, idxFind_applyDecrements, hfind]
  have hcq : cartQty [⟨sku, qty⟩] sku = qty := by
    rw [cartQty_cons, cartQty_nil]
    show (if sku = sku then qty else 0) + 0 = qty
    rw [if_pos rfl, add_zero]
  rw [hcq]
  rfl

theorem checkout_negative_qty_increases_stock_witness :
    ((-3 : Int) < 0 ∧
      idxFind (buildIndex [⟨"a", 1, 100⟩]) "a" = some ⟨"a", 1, 100⟩ ∧
      (∀ j ∈ ([⟨"a", 1, 100⟩] : List StockItem), 0 ≤ j.qty)) ∧
    (lineError (buildIndex [⟨"a", 1, 100⟩]) ⟨"a", -3⟩ = none ∧
      (checkout ⟨[⟨"a", 1, 100⟩], [], []⟩ ⟨none, [⟨"a", -3⟩], none⟩).1 = none ∧
      ∃ it', (checkout ⟨[⟨"a", 1, 100⟩], [], []⟩ ⟨none, [⟨"a", -3⟩], none⟩).2.stock.find?
          (fun j => j.sku == "a") = some it' ∧
        it'.qty = (⟨"a", 1, 100⟩ : StockItem).qty + (((-3 : Int).natAbs : Int))) :=
  ⟨⟨by decide, by decide, by decide⟩,
   checkout_negative_qty_increases_stock ⟨[⟨"a", 1, 100⟩], [], []⟩ "a" (-3) ⟨"a", 1, 100⟩
     (by decide) (by decide) (by decide)⟩

/-! ### Claim C10 -/

/-- Claim C10: a successful checkout persists exactly the value list of the
sku index: the written skus are the index's keys in index order with no
duplicate, entries whose sku is not in the cart come back unchanged as the
last occurrence of that sku in the stored list (duplicate-sku stock lists are
silently collapsed, last occurrence winning). -/
theorem checkout_stock_is_index_values (st : ServerState) (req : CheckoutRequest)
    (hv : validate (buildIndex st.stock) req.cart = none) :
    (checkout st req).2.stock
      = (applyDecrements (buildIndex st.stock) req.cart).map (fun p => p.2) ∧
    ((checkout st req).2.stock.map (fun it => it.sku)).Nodup ∧
    (checkout st req).2.stock.map (fun it => it.sku)
      = (buildIndex st.stock).map (fun p => p.1) ∧
    (∀ it' ∈ (checkout st req).2.stock, it'.sku ∉ req.cart.map (fun l => l.sku) →
      (st.stock.filter (fun j => j.sku == it'.sku)).getLast? = some it') := by
  have hco := checkout_of_validate_none st req hv
  have hstock : (checkout st req).2.stock
      = (applyDecrements (buildIndex st.stock) req.cart).map (fun p => p.2) := by
    rw [hco]
  have hkm2 : ∀ p ∈ applyDecrements (buildIndex st.stock) req.cart, p.1 = p.2.sku :=
    keyMatch_applyDecrements _ _ (keyMatch_buildIndex st.stock)
  have hskus : (checkout st req).2.stock.map (fun it => it.sku)
      = (buildIndex st.stock).map (fun p => p.1) := by
    rw [hstock, List.map_map, ← keys_applyDecrements req.cart (buildIndex st.stock)]
    exact List.map_congr_left (fun p hp => (hkm2 p hp).symm)
  refine ⟨hstock, ?_, hskus, ?_⟩
  · rw [hskus]
    exact keysNodup_buildIndex st.stock
  · intro it' hit' hnotin
    rw [hstock] at hit'
    obtain ⟨p, hp, hpj⟩ := List.mem_map.mp hit'
    have hps : p.1 = it'.sku := by rw [hkm2 p hp, hpj]
    have hnd2 : ((applyDecrements (buildIndex st.stock) req.cart).map (fun p => p.1)).Nodup := by
      rw [keys_applyDecrements]
      exact keysNodup_buildIndex st.stock
    have hfind2 : idxFind (applyDecrements (buildIndex st.stock) req.cart) p.1 = some p.2 :=
      idxFind_of_mem _ hnd2 p hp
    rw [idxFind_applyDecrements] at hfind2
    have hcq : cartQty req.cart p.1 = 0 := by
      refine cartQty_eq_zero_of_not_mem req.cart p.1 ?_
      intro l hl he
      exact hnotin (by rw [← hps, ← he]; exact List.mem_map.mpr ⟨l, hl, rfl⟩)
    rw [hcq] at hfind2
    cases hfind0 : idxFind (buildIndex st.stock) p.1 with
    | none =>
      rw [hfind0] at hfind2
      cases hfind2
    | some it0 =>
      rw [hfind0] at hfind2
      have : it0 = p.2 := by
        have h := Option.some.inj hfind2
        rw [← h]
        cases it0
        simp
      rw [this, hpj] at hfind0
      rw [← hps, getLast?_filter_eq_find?_reverse, ← idxFind_buildIndex, hfind0]

theorem checkout_stock_is_index_values_witness :
    validate (buildIndex [⟨"x", 5, 1⟩, ⟨"y", 7, 2⟩, ⟨"x", 3, 9⟩]) [⟨"y", 1⟩] = none ∧
    (checkout ⟨[⟨"x", 5, 1⟩, ⟨"y", 7, 2⟩, ⟨"x", 3, 9⟩], [], []⟩ ⟨none, [⟨"y", 1⟩], none⟩).2.stock
        = [⟨"x", 3, 9⟩, ⟨"y", 6, 2⟩] ∧
    (∀ it' ∈ (checkout ⟨[⟨"x", 5, 1⟩, ⟨"y", 7, 2⟩, ⟨"x", 3, 9⟩], [], []⟩
        ⟨none, [⟨"y", 1⟩], none⟩).2.stock,
      it'.sku ∉ ([⟨"y", 1⟩] : List CartLine).map (fun l => l.sku) →
      (([⟨"x", 5, 1⟩, ⟨"y", 7, 2⟩, ⟨"x", 3, 9⟩] : List StockItem).filter
          (fun j => j.sku == it'.sku)).getLast? = some it') :=
  ⟨by decide, by decide,
   (checkout_stock_is_index_values ⟨[⟨"x", 5, 1⟩, ⟨"y", 7, 2⟩, ⟨"x", 3, 9⟩], [], []⟩
      ⟨none, [⟨"y", 1⟩], none⟩ (by decide)).2.2.2⟩

end AppServer
